import Mathlib

/-!
Shallow embedding of the `rack` AWS Lambda handler wrapper (Go).

Go maps decoded from JSON are modelled as association lists with the keys in
payload order; a Go map-typed struct field that may be `nil` after
`json.Unmarshal` (absent wire field) is modelled as an `Option` of the list,
with `none` standing for the nil map.  Machine integers hold HTTP status
codes only, so `Nat` suffices.  Fallible Go functions return pairs with an
`Option GoError` or `Except GoError`.
-/

namespace Rack

/-- A Go `map[string]V` decoded from a JSON object: keys are unique in
practice, list order stands for iteration order. -/
abbrev StrMap (V : Type) := List (String × V)

/-- Model of `url.Values` / `http.Header`: `map[string][]string`. -/
abbrev Values := StrMap (List String)

/-- Go map read `m[k]` returning `(value, present)`. -/
def mapGet {V : Type} : StrMap V → String → Option V
  | [], _ => none
  | (k', v) :: rest, k => if k' = k then some v else mapGet rest k

/-- Go map assignment `m[k] = v`: replace the entry if present, else append. -/
def mapSet {V : Type} : StrMap V → String → V → StrMap V
  | [], k, v => [(k, v)]
  | (k', v') :: rest, k, v =>
    if k' = k then (k, v) :: rest else (k', v') :: mapSet rest k v

/-- Model of `m[k] = append(m[k], v)` on a `map[string][]string`. -/
def addVal : Values → String → String → Values
  | [], k, v => [(k, [v])]
  | (k', vs) :: rest, k, v =>
    if k' = k then (k', vs ++ [v]) :: rest else (k', vs) :: addVal rest k v

/-- All values stored under key `k` (empty list when the key is absent). -/
def vget (m : Values) (k : String) : List String := (mapGet m k).getD []

/-- Model of `textproto.validHeaderFieldByte`: the RFC 7230 token characters. -/
def validHeaderFieldChar (c : Char) : Bool :=
  (c ≥ 'a' && c ≤ 'z') || (c ≥ 'A' && c ≤ 'Z') || (c ≥ '0' && c ≤ '9') ||
  c = '!' || c = '#' || c = '$' || c = '%' || c = '&' || c = '\'' ||
  c = '*' || c = '+' || c = '-' || c = '.' || c = '^' || c = '_' ||
  c = Char.ofNat 96 || c = '|' || c = '~'

/-- Character loop of `textproto.CanonicalMIMEHeaderKey`: uppercase the first
letter and every letter following a hyphen, lowercase the rest. -/
def canonChars : Bool → List Char → List Char
  | _, [] => []
  | up, c :: rest =>
    (if up then c.toUpper else c.toLower) :: canonChars (c = '-') rest

/-- Model of `textproto.CanonicalMIMEHeaderKey`: returned unchanged when the key holds
an invalid header-field character, else canonicalised. -/
def canonKey (s : String) : String :=
  if s.data.all validHeaderFieldChar then String.mk (canonChars true s.data) else s

/-- Model of `url.Values.Add`: exact key, append the value. -/
def urlAdd (m : Values) (k v : String) : Values := addVal m k v

/-- Model of `http.Header.Add` (via `textproto.MIMEHeader.Add`): canonicalise the key,
append the value. -/
def headerAdd (m : Values) (k v : String) : Values := addVal m (canonKey k) v

/-- Model of `http.Header.Values`: all values under the canonicalised key. -/
def headerValues (m : Values) (k : String) : List String := vget m (canonKey k)

/-- Model of `http.Header.Get` (via `textproto.MIMEHeader.Get`): first value under the
canonicalised key, or the empty string. -/
def headerGet (m : Values) (k : String) : String :=
  match mapGet m (canonKey k) with
  | some (v :: _) => v
  | _ => ""

/-- Model of `url.Values.Get`: first value under the exact key, or the empty string. -/
def urlValuesGet (m : Values) (k : String) : String :=
  match mapGet m k with
  | some (v :: _) => v
  | _ => ""

/-- Character-list core of Go `strings.Split` with a one-character
separator: split on every occurrence, keeping empty segments, so the empty
input gives one empty segment. -/
def splitChars (sep : Char) : List Char → List (List Char)
  | [] => [[]]
  | c :: rest =>
    if c = sep then [] :: splitChars sep rest
    else
      match splitChars sep rest with
      | [] => [[c]]
      | g :: gs => (c :: g) :: gs

/-- Go `strings.Split` restricted to the one-character separator the
Gateway-V2 decoder uses. -/
def stringsSplit (s : String) (sep : Char) : List String :=
  (splitChars sep s.data).map String.mk

/-- Model of `mergeMaps` (processor.go): feed every single-value entry, then every
multi-value entry, to the add callback, in that order. -/
def mergeMaps (sv : StrMap String) (mv : StrMap (List String))
    (addFn : Values → String → String → Values) (acc : Values) : Values :=
  mv.foldl (fun a p => p.2.foldl (fun a2 v => addFn a2 p.1 v) a)
    (sv.foldl (fun a p => addFn a p.1 p.2) acc)

/-- Model of `reduceHeaders` (processor.go): single-value map with `m[k] = h.Get(k)`
for every key of `h`. -/
def reduceHeaders (h : Values) : StrMap String :=
  h.map (fun kv => (kv.1, headerGet h kv.1))

/-- Canonical request (rack.go).  `Event` is an opaque passthrough and is
omitted.  The three map fields may be nil in Go, hence `Option`. -/
structure Request where
  method : String
  rawPath : String
  path : Option (StrMap String)
  query : Option Values
  header : Option Values
  body : String
deriving Repr, DecidableEq

/-- Canonical response (rack.go). -/
structure Response where
  statusCode : Nat := 0
  headers : Values := []
  body : String := ""
deriving Repr, DecidableEq

/-- Model of `events.APIGatewayProxyRequest`, restricted to the fields the decoder
reads.  Absent wire fields leave the Go zero value: empty string, nil map. -/
structure APIGatewayProxyRequestEvent where
  httpMethod : String := ""
  path : String := ""
  pathParameters : Option (StrMap String) := none
  multiValueQueryStringParameters : Option Values := none
  multiValueHeaders : Option Values := none
  body : String := ""
deriving Repr, DecidableEq

/-- Model of `events.APIGatewayV2HTTPRequest`, restricted to the fields the decoder
reads.  `queryStringParameters` and `headers` are only iterated, so nil and
empty are indistinguishable and a plain list suffices. -/
structure APIGatewayV2HTTPRequestEvent where
  requestContextHTTPMethod : String := ""
  requestContextHTTPPath : String := ""
  pathParameters : Option (StrMap String) := none
  queryStringParameters : StrMap String := []
  headers : StrMap String := []
  body : String := ""
deriving Repr, DecidableEq

/-- Model of `events.ALBTargetGroupRequest`, restricted to the fields the decoder
reads. -/
structure ALBTargetGroupRequestEvent where
  httpMethod : String := ""
  path : String := ""
  queryStringParameters : StrMap String := []
  multiValueQueryStringParameters : StrMap (List String) := []
  headers : StrMap String := []
  multiValueHeaders : StrMap (List String) := []
  body : String := ""
deriving Repr, DecidableEq

/-- Model of `events.APIGatewayProxyResponse`. -/
structure APIGatewayProxyResponse where
  statusCode : Nat
  headers : StrMap String
  multiValueHeaders : Values
  body : String
  isBase64Encoded : Bool
deriving Repr, DecidableEq

/-- Model of `events.APIGatewayV2HTTPResponse`. -/
structure APIGatewayV2HTTPResponse where
  statusCode : Nat
  headers : StrMap String
  multiValueHeaders : Values
  body : String
  isBase64Encoded : Bool
  cookies : List String
deriving Repr, DecidableEq

/-- Model of `events.ALBTargetGroupResponse`. -/
structure ALBTargetGroupResponse where
  statusCode : Nat
  statusDescription : String
  headers : StrMap String
  multiValueHeaders : Values
  body : String
  isBase64Encoded : Bool
deriving Repr, DecidableEq

/-- Model of `http.StatusText`, restricted to the codes exercised here; Go returns
the empty string for an unknown code. -/
def statusText (code : Nat) : String :=
  if code = 200 then "OK"
  else if code = 201 then "Created"
  else if code = 204 then "No Content"
  else if code = 400 then "Bad Request"
  else if code = 404 then "Not Found"
  else if code = 409 then "Conflict"
  else if code = 500 then "Internal Server Error"
  else ""

/-- The result of the gjson probes `CanProcess` makes on the raw payload:
`version` is the top-level version field (`none` when absent, else its
gjson string form), `requestContextApiId` whether `requestContext.apiId`
exists, `requestContextElb` whether `requestContext.elb` exists. -/
structure Payload where
  version : Option String := none
  requestContextApiId : Bool := false
  requestContextElb : Bool := false
deriving Repr, DecidableEq

/-- Model of `APIGatewayProxyEventProcessor.canProcess`: no top-level version field,
and `requestContext.apiId` present. -/
def proxyCanProcess (p : Payload) : Bool :=
  !p.version.isSome && p.requestContextApiId

/-- Model of `APIGatewayV2HTTPEventProcessor.canProcess`: version string equals
"2.0" and `requestContext.apiId` present (gjson gives `""` when absent). -/
def v2CanProcess (p : Payload) : Bool :=
  (p.version.getD "") = "2.0" && p.requestContextApiId

/-- Model of `ALBTargetGroupEventProcessor.canProcess`: `requestContext.elb`
present. -/
def albCanProcess (p : Payload) : Bool :=
  p.requestContextElb

/-- Model of `APIGatewayProxyEventProcessor.unmarshalRequest`: the three map-typed
wire fields are passed through by type conversion, unchanged. -/
def proxyUnmarshalRequest (e : APIGatewayProxyRequestEvent) : Request :=
  { method := e.httpMethod
    rawPath := e.path
    path := e.pathParameters
    query := e.multiValueQueryStringParameters
    header := e.multiValueHeaders
    body := e.body }

/-- Model of `APIGatewayV2HTTPEventProcessor.unmarshalRequest`: each query value is
split on commas and added one by one; headers are added via `http.Header.Add`
with a nil multi-value map. -/
def v2UnmarshalRequest (e : APIGatewayV2HTTPRequestEvent) : Request :=
  let q := e.queryStringParameters.foldl
    (fun a p => (stringsSplit p.2 ',').foldl (fun a2 v => urlAdd a2 p.1 v) a) []
  let h := mergeMaps e.headers [] headerAdd []
  { method := e.requestContextHTTPMethod
    rawPath := e.requestContextHTTPPath
    path := e.pathParameters
    query := some q
    header := some h
    body := e.body }

/-- Model of `ALBTargetGroupEventProcessor.unmarshalRequest`: single-value and
multi-value query/header maps merged via `mergeMaps`; path parameters set to
a fresh empty map. -/
def albUnmarshalRequest (e : ALBTargetGroupRequestEvent) : Request :=
  let q := mergeMaps e.queryStringParameters e.multiValueQueryStringParameters urlAdd []
  let h := mergeMaps e.headers e.multiValueHeaders headerAdd []
  { method := e.httpMethod
    rawPath := e.path
    path := some []
    query := some q
    header := some h
    body := e.body }

/-- Model of `APIGatewayProxyEventProcessor.marshalResponse`. -/
def proxyMarshalResponse (r : Response) : APIGatewayProxyResponse :=
  { statusCode := r.statusCode
    headers := reduceHeaders r.headers
    multiValueHeaders := r.headers
    body := r.body
    isBase64Encoded := false }

/-- Model of `APIGatewayV2HTTPEventProcessor.marshalResponse`. -/
def v2MarshalResponse (r : Response) : APIGatewayV2HTTPResponse :=
  { statusCode := r.statusCode
    headers := reduceHeaders r.headers
    multiValueHeaders := r.headers
    body := r.body
    isBase64Encoded := false
    cookies := [] }

/-- Model of `ALBTargetGroupEventProcessor.marshalResponse`. -/
def albMarshalResponse (r : Response) : ALBTargetGroupResponse :=
  { statusCode := r.statusCode
    statusDescription := statusText r.statusCode
    headers := reduceHeaders r.headers
    multiValueHeaders := r.headers
    body := r.body
    isBase64Encoded := false }

/-- Go error values as they occur in this package: `errors.New` messages,
`*StatusError` (error.go: a code plus a wrapped inner error, whose message it
exposes), and generic wrappers exposing `Unwrap` but no code (e.g.
`fmt.Errorf` with `%w`). -/
inductive GoError where
  | basic (msg : String)
  | status (code : Nat) (inner : GoError)
  | wrapped (msg : String) (inner : GoError)
deriving Repr, DecidableEq

/-- Model of `Error()` on each error kind; `(*StatusError).Error` returns the
message of the wrapped error (error.go). -/
def GoError.text : GoError → String
  | .basic m => m
  | .status _ inner => inner.text
  | .wrapped m _ => m

/-- Model of `WrapError` (error.go). -/
def WrapError (code : Nat) (err : GoError) : GoError := .status code err

/-- Model of `StatusCode` (error.go): `errors.As` walk over the cause chain for the
first error exposing a `Code()`, defaulting to 500. -/
def StatusCode : GoError → Nat
  | .status code _ => code
  | .wrapped _ inner => StatusCode inner
  | .basic _ => 500

/-- Model of `ErrUnsupportedEventType` (resolver.go). -/
def ErrUnsupportedEventType : GoError := .basic "unsupported event type"

/-- A format processor as the resolver sees it: the `CanProcess`
predicate over the payload probes.  The decode/encode halves are the typed
functions above. -/
structure Processor where
  canProcess : Payload → Bool
deriving Inhabited

/-- Model of `APIGatewayProxyEventProcessor` (predicate half). -/
def APIGatewayProxyEventProcessor : Processor := ⟨proxyCanProcess⟩

/-- Model of `APIGatewayV2HTTPEventProcessor` (predicate half). -/
def APIGatewayV2HTTPEventProcessor : Processor := ⟨v2CanProcess⟩

/-- Model of `ALBTargetGroupEventProcessor` (predicate half). -/
def ALBTargetGroupEventProcessor : Processor := ⟨albCanProcess⟩

/-- A resolver: `Resolve(payload) (Processor, error)`. -/
abbrev Resolver := Payload → Except GoError Processor

/-- Model of `NewConditionalResolver` (resolver.go): first processor whose
`CanProcess` holds, else `ErrUnsupportedEventType`. -/
def NewConditionalResolver (ps : List Processor) : Resolver := fun payload =>
  match ps with
  | [] => .error ErrUnsupportedEventType
  | p :: rest =>
    if p.canProcess payload then .ok p else NewConditionalResolver rest payload

/-- Model of `NewStaticResolver` (resolver.go). -/
def NewStaticResolver (p : Processor) : Resolver := fun _ => .ok p

/-- Model of `defaultResolver` (resolver.go). -/
def defaultResolver : Resolver :=
  NewConditionalResolver
    [APIGatewayProxyEventProcessor, APIGatewayV2HTTPEventProcessor,
     ALBTargetGroupEventProcessor]

/-- The resolver `NewWithConfig` uses: the configured one, or
`defaultResolver` when the config holds none (rack.go). -/
def configResolver (r : Option Resolver) : Resolver :=
  match r with
  | some r => r
  | none => defaultResolver

/-- Handler context (context.go), restricted to the fields the claims touch:
the canonical request and the mutable response.  Go mutates through a
pointer; here every operation returns the updated context. -/
structure Ctx where
  request : Request
  response : Response
deriving Repr, DecidableEq

/-- Model of `HandlerFunc`: may mutate the context and return an error. -/
abbrev Handler := Ctx → Ctx × Option GoError

/-- Model of `MiddlewareFunc`. -/
abbrev Middleware := Handler → Handler

/-- Model of `Chain` (rack.go): `for i := len(m)-1; i >= 0; i-- { n = m[i](n) }`,
so index 0 ends up outermost. -/
def Chain (ms : List Middleware) : Middleware := fun n =>
  ms.foldr (fun m acc => m acc) n

/-- Model of `Context.NoContent` (context.go): set the status code only. -/
def ctxNoContent (c : Ctx) (code : Nat) : Ctx × Option GoError :=
  ({ c with response := { c.response with statusCode := code } }, none)

/-- Model of `Context.String` (context.go): set status, body, and the
`Content-Type: text/plain` header by direct map assignment. -/
def ctxString (c : Ctx) (code : Nat) (s : String) : Ctx × Option GoError :=
  ({ c with response :=
      { statusCode := code
        body := s
        headers := mapSet c.response.headers "Content-Type" ["text/plain"] } },
   none)

/-- One character of Go `encoding/json` string escaping (HTML escaping on,
as in `json.Marshal`). -/
def jsonEscapeChar (c : Char) : String :=
  if c = '"' then "\\\""
  else if c = '\\' then "\\\\"
  else if c = '\n' then "\\n"
  else if c = '\r' then "\\r"
  else if c = '\t' then "\\t"
  else if c = '<' then "\\u003c"
  else if c = '>' then "\\u003e"
  else if c = '&' then "\\u0026"
  else if c.toNat < 32 then
    "\\u00" ++ String.mk [(Nat.digitChar (c.toNat / 16)), (Nat.digitChar (c.toNat % 16))]
  else String.singleton c

/-- Go `encoding/json` string escaping, character by character. -/
def jsonEscape (s : String) : String :=
  s.data.foldl (fun acc c => acc ++ jsonEscapeChar c) ""

/-- Model of `json.Marshal` of the anonymous error-body struct
`struct { Message string }` of `defaultErrorHandler` (rack.go); this marshal
cannot fail. -/
def marshalMessage (msg : String) : String :=
  "\x7b\"message\":\"" ++ jsonEscape msg ++ "\"\x7d"

/-- Model of `Context.JSON` (context.go), applied to an already-serialised body whose
marshal cannot fail: set status, body, and the
`Content-Type: application/json` header by direct map assignment. -/
def ctxJSONSerialized (c : Ctx) (code : Nat) (body : String) : Ctx × Option GoError :=
  ({ c with response :=
      { statusCode := code
        body := body
        headers := mapSet c.response.headers "Content-Type" ["application/json"] } },
   none)

/-- Model of `defaultErrorHandler` (rack.go): `c.JSON(StatusCode(err), {Message:
err.Error()})`. -/
def defaultErrorHandler (c : Ctx) (err : GoError) : Ctx × Option GoError :=
  ctxJSONSerialized c (StatusCode err) (marshalMessage err.text)

/-- The default `OnEmptyResponse` (rack.go): `c.NoContent(http.StatusOK)`. -/
def defaultOnEmptyResponse : Handler := fun c => ctxNoContent c 200

/-- The default `OnBind` (rack.go): a no-op returning nil. -/
def defaultOnBind {α : Type} : α → Option GoError := fun _ => none

/-- Model of `handlerContext.Bind` (context.go), with `json.Unmarshal` into the
target type abstracted as `unmarshal` (`.error m` models a decode failure
with message `m`).  The middle component counts bind-callback invocations,
which the Go control flow performs at most once per call. -/
def handlerContextBind {α : Type} (unmarshal : String → Except String α)
    (onBind : α → Option GoError) (body : String) (target : α) :
    α × Nat × Option GoError :=
  if body = "" then (target, 0, none)
  else
    match unmarshal body with
    | .error m => (target, 0, some (WrapError 400 (.basic m)))
    | .ok v => (v, 1, onBind v)

/-- An error-recovery policy: `OnError` (rack.go). -/
abbrev OnError := Ctx → GoError → Ctx × Option GoError

/-- Observable pipeline stages, recorded in invocation order. -/
inductive PipelineEvent where
  | errorRecovery
  | emptyResponsePolicy
deriving Repr, DecidableEq

/-- The tail of the invoke closure (rack.go lines 109-115): when the response
status is still 0, run the empty-response policy; if it errors, run error
recovery; an error from recovery aborts the invocation. -/
def emptyCheck (onError : OnError) (onEmptyResponse : Handler) (c : Ctx) :
    Except GoError Ctx × List PipelineEvent :=
  if c.response.statusCode = 0 then
    match onEmptyResponse c with
    | (c1, some err) =>
      match onError c1 err with
      | (_, some err2) => (.error err2, [.emptyResponsePolicy, .errorRecovery])
      | (c2, none) => (.ok c2, [.emptyResponsePolicy, .errorRecovery])
    | (c1, none) => (.ok c1, [.emptyResponsePolicy])
  else (.ok c, [])

/-- The execute/recover/default-response part of the invoke closure
(rack.go lines 103-115): run the wrapped handler; on error run error
recovery, aborting if recovery itself errors; then fall through to the
empty-response check. -/
def runExec (onError : OnError) (onEmptyResponse : Handler) (h : Handler)
    (c : Ctx) : Except GoError Ctx × List PipelineEvent :=
  match h c with
  | (c1, some err) =>
    match onError c1 err with
    | (_, some err2) => (.error err2, [.errorRecovery])
    | (c2, none) =>
      let r := emptyCheck onError onEmptyResponse c2
      (r.1, .errorRecovery :: r.2)
  | (c1, none) => emptyCheck onError onEmptyResponse c1

/-- The invoke closure under the default configuration, entered after the
resolver has picked the V2 processor and decode has succeeded: fresh context
with an empty response, execute, recover, default-response check, encode. -/
def invokeV2Default (h : Handler) (e : APIGatewayV2HTTPRequestEvent) :
    Except GoError APIGatewayV2HTTPResponse :=
  let c : Ctx :=
    { request := v2UnmarshalRequest e
      response := { statusCode := 0, headers := [], body := "" } }
  match (runExec defaultErrorHandler defaultOnEmptyResponse h c).1 with
  | .error err => .error err
  | .ok c1 => .ok (v2MarshalResponse c1.response)

/-- A request with every field at its zero value. -/
def emptyRequest : Request :=
  { method := "", rawPath := "", path := none, query := none, header := none,
    body := "" }

/-- A fresh context as the pipeline constructs it: decoded request (here the
zero request) and an empty response. -/
def emptyCtx : Ctx := { request := emptyRequest, response := {} }

/-- Append a trace marker to the response body (stands for the
`strings.Builder` writes of the `Chain` test). -/
def appendBody (c : Ctx) (s : String) : Ctx :=
  { c with response := { c.response with body := c.response.body ++ s ++ ";" } }

/-- The observing middleware of the `Chain` test: writes a before marker,
runs the inner handler, writes an after marker. -/
def traceMW (s : String) : Middleware := fun n c =>
  let r := n (appendBody c (s ++ "-before"))
  (appendBody r.1 (s ++ "-after"), r.2)

/-- The observing handler of the `Chain` test. -/
def traceHandler : Handler := fun c => (appendBody c "H", none)

theorem mapGet_addVal (m : Values) (k v j : String) :
    mapGet (addVal m k v) j =
      if j = k then some (vget m j ++ [v]) else mapGet m j := by
  induction m with
  | nil =>
    by_cases h : j = k
    · rw [if_pos h]
      show (if k = j then some [v] else mapGet [] j) = _
      rw [if_pos h.symm]
      simp [vget, mapGet]
    · rw [if_neg h]
      show (if k = j then some [v] else mapGet [] j) = mapGet [] j
      rw [if_neg (fun hh => h hh.symm)]
  | cons p rest ih =>
    obtain ⟨k', vs⟩ := p
    by_cases hk : k' = k
    · have e1 : addVal ((k', vs) :: rest) k v = (k', vs ++ [v]) :: rest := by
        simp [addVal, hk]
      rw [e1]
      by_cases hj : k' = j
      · have hjk : j = k := by rw [← hj, hk]
        rw [if_pos hjk]
        show (if k' = j then some (vs ++ [v]) else mapGet rest j) = _
        rw [if_pos hj]
        have e2 : vget ((k', vs) :: rest) j = vs := by
          simp [vget, mapGet, hj]
        rw [e2]
      · have hjk : ¬ j = k := fun hh => hj (by rw [hk, ← hh])
        rw [if_neg hjk]
        show (if k' = j then some (vs ++ [v]) else mapGet rest j) =
          mapGet ((k', vs) :: rest) j
        rw [if_neg hj]
        show _ = (if k' = j then some vs else mapGet rest j)
        rw [if_neg hj]
    · have e1 : addVal ((k', vs) :: rest) k v = (k', vs) :: addVal rest k v := by
        simp [addVal, hk]
      rw [e1]
      by_cases hj : k' = j
      · have hjk : ¬ j = k := fun hh => hk (by rw [hj, hh])
        rw [if_neg hjk]
        show (if k' = j then some vs else mapGet (addVal rest k v) j) =
          mapGet ((k', vs) :: rest) j
        rw [if_pos hj]
        show _ = (if k' = j then some vs else mapGet rest j)
        rw [if_pos hj]
      · show (if k' = j then some vs else mapGet (addVal rest k v) j) = _
        rw [if_neg hj, ih]
        by_cases h : j = k
        · rw [if_pos h, if_pos h]
          have e2 : vget ((k', vs) :: rest) j = vget rest j := by
            simp [vget, mapGet, hj]
          rw [e2]
        · rw [if_neg h, if_neg h]
          show mapGet rest j = (if k' = j then some vs else mapGet rest j)
          rw [if_neg hj]

theorem vget_addVal (m : Values) (k v j : String) :
    vget (addVal m k v) j = if j = k then vget m j ++ [v] else vget m j := by
  unfold vget
  rw [mapGet_addVal]
  by_cases h : j = k <;> simp [h, vget]

theorem vget_foldl_addVal (pairs : StrMap String) (acc : Values) (j : String) :
    vget (pairs.foldl (fun a p => addVal a p.1 p.2) acc) j =
      vget acc j ++ (pairs.filter (fun p => p.1 = j)).map (fun p => p.2) := by
  induction pairs generalizing acc with
  | nil => simp
  | cons p rest ih =>
    simp only [List.foldl_cons, List.filter_cons]
    rw [ih, vget_addVal]
    by_cases h : p.1 = j
    · rw [if_pos h.symm]
      simp [h]
    · rw [if_neg (fun hh => h hh.symm)]
      simp [h]

theorem vget_foldl_addVals (vs : List String) (k : String) (acc : Values) (j : String) :
    vget (vs.foldl (fun a v => addVal a k v) acc) j =
      vget acc j ++ if j = k then vs else [] := by
  induction vs generalizing acc with
  | nil => simp
  | cons v rest ih =>
    simp only [List.foldl_cons]
    rw [ih, vget_addVal]
    by_cases h : j = k <;> simp [h]

theorem vget_foldl_addAll (pairs : StrMap (List String)) (acc : Values) (j : String) :
    vget (pairs.foldl (fun a p => p.2.foldl (fun a2 v => addVal a2 p.1 v) a) acc) j =
      vget acc j ++ ((pairs.filter (fun p => p.1 = j)).map (fun p => p.2)).flatten := by
  induction pairs generalizing acc with
  | nil => simp
  | cons p rest ih =>
    simp only [List.foldl_cons, List.filter_cons]
    rw [ih, vget_foldl_addVals]
    by_cases h : p.1 = j
    · rw [if_pos h.symm]
      simp [h]
    · rw [if_neg (fun hh => h hh.symm)]
      simp [h]

theorem vget_foldl_headerAdd (pairs : StrMap String) (acc : Values) (j : String) :
    vget (pairs.foldl (fun a p => headerAdd a p.1 p.2) acc) j =
      vget acc j ++ (pairs.filter (fun p => canonKey p.1 = j)).map (fun p => p.2) := by
  induction pairs generalizing acc with
  | nil => simp
  | cons p rest ih =>
    simp only [List.foldl_cons, List.filter_cons]
    rw [ih]
    show vget (addVal acc (canonKey p.1) p.2) j ++ _ = _
    rw [vget_addVal]
    by_cases h : canonKey p.1 = j
    · rw [if_pos h.symm]
      simp [h]
    · rw [if_neg (fun hh => h hh.symm)]
      simp [h]

theorem vget_foldl_headerAddAll (pairs : StrMap (List String)) (acc : Values) (j : String) :
    vget (pairs.foldl (fun a p => p.2.foldl (fun a2 v => headerAdd a2 p.1 v) a) acc) j =
      vget acc j ++
        ((pairs.filter (fun p => canonKey p.1 = j)).map (fun p => p.2)).flatten := by
  induction pairs generalizing acc with
  | nil => simp
  | cons p rest ih =>
    simp only [List.foldl_cons, List.filter_cons]
    rw [ih]
    show vget (p.2.foldl (fun a2 v => addVal a2 (canonKey p.1) v) acc) j ++ _ = _
    rw [vget_foldl_addVals]
    by_cases h : canonKey p.1 = j
    · rw [if_pos h.symm]
      simp [h]
    · rw [if_neg (fun hh => h hh.symm)]
      simp [h]

theorem vget_mergeMaps_url (sv : StrMap String) (mv : StrMap (List String)) (j : String) :
    vget (mergeMaps sv mv urlAdd []) j =
      (sv.filter (fun p => p.1 = j)).map (fun p => p.2) ++
        ((mv.filter (fun p => p.1 = j)).map (fun p => p.2)).flatten := by
  show vget (mv.foldl (fun a p => p.2.foldl (fun a2 v => addVal a2 p.1 v) a)
    (sv.foldl (fun a p => addVal a p.1 p.2) [])) j = _
  rw [vget_foldl_addAll, vget_foldl_addVal]
  simp [vget, mapGet]

theorem vget_mergeMaps_header (sv : StrMap String) (mv : StrMap (List String)) (j : String) :
    vget (mergeMaps sv mv headerAdd []) j =
      (sv.filter (fun p => canonKey p.1 = j)).map (fun p => p.2) ++
        ((mv.filter (fun p => canonKey p.1 = j)).map (fun p => p.2)).flatten := by
  show vget (mv.foldl (fun a p => p.2.foldl (fun a2 v => headerAdd a2 p.1 v) a)
    (sv.foldl (fun a p => headerAdd a p.1 p.2) [])) j = _
  rw [vget_foldl_headerAddAll, vget_foldl_headerAdd]
  simp [vget, mapGet]

theorem mapGet_of_nodup {V : Type} (m : StrMap V) (k : String) (v : V)
    (hu : (m.map (fun p => p.1)).Nodup) (hmem : (k, v) ∈ m) :
    mapGet m k = some v := by
  induction m with
  | nil => cases hmem
  | cons p rest ih =>
    obtain ⟨k', v'⟩ := p
    simp only [List.map_cons, List.nodup_cons] at hu
    rcases List.mem_cons.mp hmem with h | h
    · cases h
      simp [mapGet]
    · have hkne : ¬ k' = k := by
        intro hh
        exact hu.1 (hh ▸ List.mem_map.mpr ⟨(k, v), h, rfl⟩)
      show (if k' = k then some v' else mapGet rest k) = _
      rw [if_neg hkne]
      exact ih hu.2 h

theorem filter_keys_of_nodup {V : Type} (m : StrMap V) (k : String) (v : V)
    (hu : (m.map (fun p => p.1)).Nodup) (hmem : (k, v) ∈ m) :
    m.filter (fun p => p.1 = k) = [(k, v)] := by
  induction m with
  | nil => cases hmem
  | cons p rest ih =>
    obtain ⟨k', v'⟩ := p
    simp only [List.map_cons, List.nodup_cons] at hu
    rcases List.mem_cons.mp hmem with h | h
    · cases h
      have hrest : rest.filter (fun p => p.1 = k) = [] := by
        refine List.filter_eq_nil_iff.mpr ?_
        intro a ha
        simp only [decide_eq_true_eq]
        intro hh
        exact hu.1 (hh ▸ List.mem_map.mpr ⟨a, ha, rfl⟩)
      simp [List.filter_cons, hrest]
    · have hkne : ¬ k' = k := by
        intro hh
        exact hu.1 (hh ▸ List.mem_map.mpr ⟨(k, v), h, rfl⟩)
      simp only [List.filter_cons, hkne, decide_False, if_false]
      exact ih hu.2 h

theorem mapGet_map_keyed {V W : Type} (m : StrMap V) (f : String → W) (k : String) :
    mapGet (m.map (fun kv => (kv.1, f kv.1))) k =
      if (mapGet m k).isSome then some (f k) else none := by
  induction m with
  | nil => simp [mapGet]
  | cons p rest ih =>
    obtain ⟨k', v'⟩ := p
    by_cases h : k' = k
    · show (if k' = k then some (f k') else
        mapGet (rest.map (fun kv => (kv.1, f kv.1))) k) = _
      rw [if_pos h]
      have : mapGet ((k', v') :: rest) k = some v' := by
        show (if k' = k then some v' else mapGet rest k) = _
        rw [if_pos h]
      rw [this, h]
      rfl
    · show (if k' = k then some (f k') else
        mapGet (rest.map (fun kv => (kv.1, f kv.1))) k) = _
      rw [if_neg h, ih]
      have : mapGet ((k', v') :: rest) k = mapGet rest k := by
        show (if k' = k then some v' else mapGet rest k) = _
        rw [if_neg h]
      rw [this]

theorem vget_v2QueryFold (pairs : StrMap String) (acc : Values) (j : String) :
    vget (pairs.foldl
        (fun a p => (stringsSplit p.2 ',').foldl (fun a2 v => urlAdd a2 p.1 v) a) acc) j =
      vget acc j ++
        ((pairs.filter (fun p => p.1 = j)).map (fun p => stringsSplit p.2 ',')).flatten := by
  induction pairs generalizing acc with
  | nil => simp
  | cons p rest ih =>
    simp only [List.foldl_cons, List.filter_cons]
    rw [ih]
    show vget ((stringsSplit p.2 ',').foldl (fun a2 v => addVal a2 p.1 v) acc) j ++ _ = _
    rw [vget_foldl_addVals]
    by_cases h : p.1 = j
    · rw [if_pos h.symm]
      simp [h]
    · rw [if_neg (fun hh => h hh.symm)]
      simp [h]

theorem mapGet_mapSet {V : Type} (m : StrMap V) (k : String) (v : V) :
    mapGet (mapSet m k v) k = some v := by
  induction m with
  | nil => simp [mapSet, mapGet]
  | cons p rest ih =>
    obtain ⟨k', v'⟩ := p
    by_cases h : k' = k
    · simp [mapSet, mapGet, h]
    · simp [mapSet, mapGet, h, ih]

/-- Claim C1, amended: the Load-Balancer decoder always yields non-nil
path/query/header maps (path a fresh empty map); the Gateway-V2 decoder
always yields non-nil query and header maps but passes the wire
path-parameter map through (nil when absent); the Gateway-Proxy decoder
passes all three wire maps through unchanged (nil when the wire field is
absent). -/
theorem claim_C1_amended (ep : APIGatewayProxyRequestEvent)
    (e2 : APIGatewayV2HTTPRequestEvent) (ea : ALBTargetGroupRequestEvent) :
    (proxyUnmarshalRequest ep).path = ep.pathParameters
    ∧ (proxyUnmarshalRequest ep).query = ep.multiValueQueryStringParameters
    ∧ (proxyUnmarshalRequest ep).header = ep.multiValueHeaders
    ∧ (v2UnmarshalRequest e2).path = e2.pathParameters
    ∧ ((v2UnmarshalRequest e2).query).isSome = true
    ∧ ((v2UnmarshalRequest e2).header).isSome = true
    ∧ (albUnmarshalRequest ea).path = some []
    ∧ ((albUnmarshalRequest ea).query).isSome = true
    ∧ ((albUnmarshalRequest ea).header).isSome = true :=
  ⟨rfl, rfl, rfl, rfl, rfl, rfl, rfl, rfl, rfl⟩

/-- Claim C1 is false as stated: the payload `{"requestContext":{"apiId":…}}`
is accepted by the Gateway-Proxy processor, carries none of the three wire
maps, and decodes to a Request whose path, query and header maps are all
nil (`none`), not empty maps. -/
theorem claim_C1_counterexample :
    proxyCanProcess { version := none, requestContextApiId := true } = true
    ∧ (proxyUnmarshalRequest {}).path = none
    ∧ (proxyUnmarshalRequest {}).query = none
    ∧ (proxyUnmarshalRequest {}).header = none :=
  ⟨rfl, rfl, rfl, rfl⟩

/-- Claim C2, amended: a handler error always sends the pipeline to Error
Recovery; when recovery itself errors the invocation aborts with that error
and the Default-Response Check never runs; when recovery succeeds — and
likewise when the handler returned no error — the pipeline falls through to
the Default-Response Check, which invokes the empty-response policy exactly
when the response status is still the sentinel 0. -/
theorem claim_C2_amended (onError : OnError) (onEmpty h : Handler)
    (c c1 c2 : Ctx) (err err2 : GoError) :
    (h c = (c1, some err) → onError c1 err = (c2, some err2) →
      runExec onError onEmpty h c = (.error err2, [.errorRecovery]))
    ∧ (h c = (c1, some err) → onError c1 err = (c2, none) →
      runExec onError onEmpty h c =
        ((emptyCheck onError onEmpty c2).1,
          .errorRecovery :: (emptyCheck onError onEmpty c2).2))
    ∧ (h c = (c1, none) → runExec onError onEmpty h c = emptyCheck onError onEmpty c1)
    ∧ (c.response.statusCode ≠ 0 → emptyCheck onError onEmpty c = (.ok c, [])) := by
  refine ⟨?_, ?_, ?_, ?_⟩
  · intro h1 h2
    simp [runExec, h1, h2]
  · intro h1 h2
    simp [runExec, h1, h2]
  · intro h1
    simp [runExec, h1]
  · intro h0
    simp [emptyCheck, h0]

/-- Claim C2 is false as stated: with a handler that errors, a recovering
error handler that writes no status, and an empty-response policy, the
pipeline runs Error Recovery and then still performs the Default-Response
Check, invoking the policy — the recorded stage trace shows both. -/
theorem claim_C2_counterexample :
    (runExec (fun c _ => (c, none)) (fun c => ctxNoContent c 299)
        (fun c => (c, some (.basic "handler failure"))) emptyCtx).2
      = [.errorRecovery, .emptyResponsePolicy] := rfl

/-- Witness for the amended C2 at concrete inputs: an erroring handler and
an erroring recovery handler abort the invocation with the recovery error,
with no Default-Response Check. -/
theorem claim_C2_witness :
    runExec (fun c _ => (c, some (.basic "abort"))) defaultOnEmptyResponse
        (fun c => (c, some (.basic "boom"))) emptyCtx
      = (.error (.basic "abort"), [.errorRecovery]) :=
  (claim_C2_amended (fun c _ => (c, some (.basic "abort"))) defaultOnEmptyResponse
      (fun c => (c, some (.basic "boom"))) emptyCtx emptyCtx emptyCtx
      (.basic "boom") (.basic "abort")).1 rfl rfl

/-- Claim C4: the conditional resolver returns the first processor whose
`CanProcess` accepts the payload, failing with `ErrUnsupportedEventType`
when none does; the default resolver taken when the config holds no
resolver is the conditional resolver over the three built-in processors in
the fixed order Gateway-Proxy, Gateway-V2, Load-Balancer. -/
theorem claim_C4 (ps : List Processor) (payload : Payload) :
    NewConditionalResolver ps payload =
      ((ps.find? (fun p => p.canProcess payload)).elim
        (.error ErrUnsupportedEventType) Except.ok)
    ∧ ((∀ p ∈ ps, p.canProcess payload = false) →
        NewConditionalResolver ps payload = .error ErrUnsupportedEventType)
    ∧ configResolver none = defaultResolver
    ∧ defaultResolver =
      NewConditionalResolver
        [APIGatewayProxyEventProcessor, APIGatewayV2HTTPEventProcessor,
         ALBTargetGroupEventProcessor] := by
  have h1 : NewConditionalResolver ps payload =
      ((ps.find? (fun p => p.canProcess payload)).elim
        (.error ErrUnsupportedEventType) Except.ok) := by
    induction ps with
    | nil => rfl
    | cons p rest ih =>
      simp only [List.find?_cons]
      by_cases h : p.canProcess payload
      · simp [NewConditionalResolver, h]
      · simp [NewConditionalResolver, h, ih]
  refine ⟨h1, ?_, rfl, rfl⟩
  intro hall
  rw [h1]
  have : ps.find? (fun p => p.canProcess payload) = none :=
    List.find?_eq_none.mpr (fun x hx => by simp [hall x hx])
  rw [this]
  rfl

/-- Witness for C4 at a concrete input: a payload with no version field, no
API identifier and no load-balancer field is claimed by none of the three
built-in processors, so the default processor sequence resolves to
`ErrUnsupportedEventType`. -/
theorem claim_C4_witness :
    NewConditionalResolver
        [APIGatewayProxyEventProcessor, APIGatewayV2HTTPEventProcessor,
         ALBTargetGroupEventProcessor] {}
      = .error ErrUnsupportedEventType := by
  refine (claim_C4
      [APIGatewayProxyEventProcessor, APIGatewayV2HTTPEventProcessor,
       ALBTargetGroupEventProcessor] {}).2.1 ?_
  intro p hp
  rcases List.mem_cons.mp hp with rfl | hp
  · rfl
  rcases List.mem_cons.mp hp with rfl | hp
  · rfl
  rcases List.mem_cons.mp hp with rfl | hp
  · rfl
  cases hp

/-- Claim C9: `Chain` wraps index 0 outermost — `Chain [M1, M2]` applied to
`H` is `M1 (M2 H)` — and with observing middleware the execution order is
M1-before, M2-before, H, M2-after, M1-after. -/
theorem claim_C9 (m1 m2 : Middleware) (h : Handler) :
    Chain [m1, m2] h = m1 (m2 h)
    ∧ ((Chain [traceMW "M1", traceMW "M2"] traceHandler) emptyCtx).1.response.body
        = "M1-before;M2-before;H;M2-after;M1-after;" :=
  ⟨rfl, by decide⟩

/-- Claim C3, amended: the Gateway-V2 and Load-Balancer decoders store
header values under the canonicalised key, and `http.Header` lookups
canonicalise the name, so a lookup in any letter-casing returns exactly the
values the payload carried under names with the same canonical form.  The
Gateway-Proxy decoder converts the wire header map without canonicalising
its keys, so lookups find values only for wire keys already in canonical
MIME form (see the counterexample). -/
theorem claim_C3_amended (e2 : APIGatewayV2HTTPRequestEvent)
    (ea : ALBTargetGroupRequestEvent) (k k' : String)
    (hc : canonKey k' = canonKey k) :
    headerValues (((v2UnmarshalRequest e2).header).getD []) k' =
      (e2.headers.filter (fun p => canonKey p.1 = canonKey k)).map (fun p => p.2)
    ∧ headerValues (((albUnmarshalRequest ea).header).getD []) k' =
      (ea.headers.filter (fun p => canonKey p.1 = canonKey k)).map (fun p => p.2) ++
        ((ea.multiValueHeaders.filter (fun p => canonKey p.1 = canonKey k)).map
          (fun p => p.2)).flatten := by
  constructor
  · show headerValues (mergeMaps e2.headers [] headerAdd []) k' = _
    unfold headerValues
    rw [hc, vget_mergeMaps_header]
    simp
  · show headerValues (mergeMaps ea.headers ea.multiValueHeaders headerAdd []) k' = _
    unfold headerValues
    rw [hc, vget_mergeMaps_header]

/-- Claim C3 is false as stated for the Gateway-Proxy decoder: a payload
carrying the multi-value header key `x-key` (non-canonical casing) decodes
to a header map in which no casing of the name — not even the exact wire
casing — finds the value, because the lookup canonicalises to `X-Key` while
the stored key stays `x-key`. -/
theorem claim_C3_counterexample :
    (proxyUnmarshalRequest { multiValueHeaders := some [("x-key", ["v"])] }).header
      = some [("x-key", ["v"])]
    ∧ headerValues [("x-key", ["v"])] "x-key" = []
    ∧ headerValues [("x-key", ["v"])] "X-Key" = []
    ∧ headerGet [("x-key", ["v"])] "x-key" = ""
    ∧ ([] : List String) ≠ ["v"] := by
  refine ⟨rfl, by decide, by decide, by decide, by decide⟩

/-- Witness for the amended C3 at concrete inputs: the V2 payload header
`X-Key: v` is found under the lookup casing `x-KEY`, and the ALB payload
headers `H: a` (single-value) and `h: b` (multi-value) are both found, in
single-then-multi order, under the lookup casing `h`. -/
theorem claim_C3_witness :
    headerValues (((v2UnmarshalRequest { headers := [("X-Key", "v")] }).header).getD [])
        "x-KEY"
      = (([("X-Key", "v")] : StrMap String).filter
          (fun p => canonKey p.1 = canonKey "X-Key")).map (fun p => p.2)
    ∧ headerValues (((albUnmarshalRequest
          { headers := [("H", "a")], multiValueHeaders := [("h", ["b"])] }).header).getD [])
        "h"
      = (([("H", "a")] : StrMap String).filter
          (fun p => canonKey p.1 = canonKey "H")).map (fun p => p.2) ++
        ((([("h", ["b"])] : StrMap (List String)).filter
          (fun p => canonKey p.1 = canonKey "H")).map (fun p => p.2)).flatten :=
  ⟨(claim_C3_amended { headers := [("X-Key", "v")] }
      { headers := [("H", "a")], multiValueHeaders := [("h", ["b"])] }
      "X-Key" "x-KEY" (by decide)).1,
   (claim_C3_amended { headers := [("X-Key", "v")] }
      { headers := [("H", "a")], multiValueHeaders := [("h", ["b"])] }
      "H" "h" (by decide)).2⟩

/-- Claim C5: `StatusCode` returns the code exposed by the first error in
the cause chain that carries one, defaulting to 500; the default error
handler writes that code, the JSON body carrying the error message, and an
`application/json` content type, and itself returns no error; under the
default configuration a handler failing with a Status Error of code 409 and
message "error" yields an encoded V2 response with status 409 and body
`\x7b"message":"error"\x7d`. -/
theorem claim_C5 (c : Ctx) (err inner : GoError) (code : Nat) (m : String) :
    StatusCode (WrapError code inner) = code
    ∧ StatusCode (.basic m) = 500
    ∧ StatusCode (.wrapped m (.status code inner)) = code
    ∧ (defaultErrorHandler c err).2 = none
    ∧ ((defaultErrorHandler c err).1).response.statusCode = StatusCode err
    ∧ ((defaultErrorHandler c err).1).response.body = marshalMessage err.text
    ∧ mapGet ((defaultErrorHandler c err).1).response.headers "Content-Type"
        = some ["application/json"]
    ∧ invokeV2Default (fun c0 => (c0, some (WrapError 409 (.basic "error")))) {}
      = .ok { statusCode := 409
              headers := [("Content-Type", "application/json")]
              multiValueHeaders := [("Content-Type", ["application/json"])]
              body := "\x7b\"message\":\"error\"\x7d"
              isBase64Encoded := false
              cookies := [] } := by
  refine ⟨rfl, rfl, rfl, rfl, rfl, rfl, ?_, rfl⟩
  exact mapGet_mapSet _ _ _

/-- Claim C6, amended: the single-value header map each encoder emits
holds, for each header key, the first value of the list stored under the
canonicalisation of that key — which is the first value of the own list of
the key whenever the key is already in canonical MIME form (as every key
the context writers produce is); the multi-value map each encoder emits is
the response header map itself, so round-tripping preserves header
multiplicity for canonical keys.  For a non-canonical response header key
the single-value entry is the empty string, not the first value of that
key (see the counterexample). -/
theorem claim_C6_amended (r : Response) (k v : String) (rest : List String)
    (hu : (r.headers.map (fun p => p.1)).Nodup)
    (hmem : (k, v :: rest) ∈ r.headers)
    (hck : canonKey k = k) :
    mapGet ((proxyMarshalResponse r).headers) k = some v
    ∧ (proxyMarshalResponse r).multiValueHeaders = r.headers
    ∧ mapGet ((v2MarshalResponse r).headers) k = some v
    ∧ (v2MarshalResponse r).multiValueHeaders = r.headers
    ∧ mapGet ((albMarshalResponse r).headers) k = some v
    ∧ (albMarshalResponse r).multiValueHeaders = r.headers
    ∧ (proxyMarshalResponse
        { statusCode := 200, headers := [("X-Key", ["v1", "v2"])], body := "" }).multiValueHeaders
      = [("X-Key", ["v1", "v2"])]
    ∧ (proxyMarshalResponse
        { statusCode := 200, headers := [("X-Key", ["v1", "v2"])], body := "" }).headers
      = [("X-Key", "v1")] := by
  have hget : mapGet r.headers k = some (v :: rest) := mapGet_of_nodup _ _ _ hu hmem
  have hsingle : mapGet (reduceHeaders r.headers) k = some v := by
    unfold reduceHeaders
    rw [mapGet_map_keyed, hget]
    have : headerGet r.headers k = v := by
      unfold headerGet
      rw [hck, hget]
    rw [this]
    rfl
  exact ⟨hsingle, rfl, hsingle, rfl, hsingle, rfl, rfl, by decide⟩

/-- Claim C6 is false as stated: a response header stored under the
non-canonical key `x-key` with first value `v` encodes to a single-value
entry `("x-key", "")` — `Get` canonicalises the key to `X-Key` and misses —
not to the first value of the list under that key. -/
theorem claim_C6_counterexample :
    (proxyMarshalResponse
        { statusCode := 200, headers := [("x-key", ["v"])], body := "" }).headers
      = [("x-key", "")]
    ∧ (proxyMarshalResponse
        { statusCode := 200, headers := [("x-key", ["v"])], body := "" }).multiValueHeaders
      = [("x-key", ["v"])]
    ∧ ("" : String) ≠ "v" := by
  refine ⟨by decide, rfl, by decide⟩

/-- Witness for the amended C6 at a concrete input: a two-valued canonical
header `X-Key` encodes with single-value entry `v1` and its full two-value
list in the multi-value map of every encoder. -/
theorem claim_C6_witness :
    mapGet ((proxyMarshalResponse
        { statusCode := 200, headers := [("X-Key", ["v1", "v2"])], body := "" }).headers) "X-Key"
      = some "v1"
    ∧ (proxyMarshalResponse
        { statusCode := 200, headers := [("X-Key", ["v1", "v2"])], body := "" }).multiValueHeaders
      = [("X-Key", ["v1", "v2"])]
    ∧ mapGet ((v2MarshalResponse
        { statusCode := 200, headers := [("X-Key", ["v1", "v2"])], body := "" }).headers) "X-Key"
      = some "v1"
    ∧ (v2MarshalResponse
        { statusCode := 200, headers := [("X-Key", ["v1", "v2"])], body := "" }).multiValueHeaders
      = [("X-Key", ["v1", "v2"])] := by
  have h := claim_C6_amended
    { statusCode := 200, headers := [("X-Key", ["v1", "v2"])], body := "" }
    "X-Key" "v1" ["v2"] (by decide) (by decide) (by decide)
  exact ⟨h.1, h.2.1, h.2.2.1, h.2.2.2.1⟩

/-- Claim C7: the Load-Balancer decoder merges single-value entries first
and then multi-value entries into one unified multi-value map, for both
query and header (header keys canonicalised by `Add`); its path-parameter
map is always the empty map; single-value `q1=v1` alone decodes to
`["v1"]`, and multi-value `q2=[v2,v3]` alone decodes to `["v2","v3"]`. -/
theorem claim_C7 (ea : ALBTargetGroupRequestEvent) (j : String) :
    (albUnmarshalRequest ea).path = some []
    ∧ vget (((albUnmarshalRequest ea).query).getD []) j =
        (ea.queryStringParameters.filter (fun p => p.1 = j)).map (fun p => p.2) ++
          ((ea.multiValueQueryStringParameters.filter (fun p => p.1 = j)).map
            (fun p => p.2)).flatten
    ∧ vget (((albUnmarshalRequest ea).header).getD []) j =
        (ea.headers.filter (fun p => canonKey p.1 = j)).map (fun p => p.2) ++
          ((ea.multiValueHeaders.filter (fun p => canonKey p.1 = j)).map
            (fun p => p.2)).flatten
    ∧ vget (((albUnmarshalRequest
        { queryStringParameters := [("q1", "v1")] }).query).getD []) "q1" = ["v1"]
    ∧ vget (((albUnmarshalRequest
        { multiValueQueryStringParameters := [("q2", ["v2", "v3"])] }).query).getD [])
        "q2" = ["v2", "v3"] := by
  refine ⟨rfl, ?_, ?_, by decide, by decide⟩
  · show vget (mergeMaps ea.queryStringParameters
      ea.multiValueQueryStringParameters urlAdd []) j = _
    exact vget_mergeMaps_url _ _ _
  · show vget (mergeMaps ea.headers ea.multiValueHeaders headerAdd []) j = _
    exact vget_mergeMaps_header _ _ _

/-- Claim C8: `Bind` is a no-op returning no error on an empty body (the
callback is not invoked); fails with a Status Error of code 400 wrapping
the decode error on a non-empty body that does not decode; and on a
successful decode returns the decoded value, invokes the bind callback
exactly once, and surfaces the callback result unchanged. -/
theorem claim_C8 {α : Type} (unmarshal : String → Except String α)
    (onBind : α → Option GoError) (body : String) (target v : α) (m : String) :
    (body = "" → handlerContextBind unmarshal onBind body target = (target, 0, none))
    ∧ (body ≠ "" → unmarshal body = .error m →
        handlerContextBind unmarshal onBind body target
          = (target, 0, some (WrapError 400 (.basic m))))
    ∧ (body ≠ "" → unmarshal body = .ok v →
        handlerContextBind unmarshal onBind body target = (v, 1, onBind v)) := by
  refine ⟨?_, ?_, ?_⟩
  · intro h
    simp [handlerContextBind, h]
  · intro h h2
    simp [handlerContextBind, h, h2]
  · intro h h2
    simp [handlerContextBind, h, h2]

/-- Witness for C8 at concrete inputs: a toy decoder accepting only the
body "1"; empty body is a no-op, body "x" fails with the 400-coded error,
body "1" decodes to 1 with one callback invocation and the nil callback
result. -/
theorem claim_C8_witness :
    handlerContextBind (fun s => if s = "1" then Except.ok 1 else Except.error "bad")
        (fun _ => (none : Option GoError)) "" 7 = (7, 0, none)
    ∧ handlerContextBind (fun s => if s = "1" then Except.ok 1 else Except.error "bad")
        (fun _ => (none : Option GoError)) "x" 7
      = (7, 0, some (WrapError 400 (.basic "bad")))
    ∧ handlerContextBind (fun s => if s = "1" then Except.ok 1 else Except.error "bad")
        (fun _ => (none : Option GoError)) "1" 7 = (1, 1, none) :=
  ⟨(claim_C8 (fun s => if s = "1" then Except.ok 1 else Except.error "bad")
      (fun _ => none) "" 7 1 "bad").1 rfl,
   (claim_C8 (fun s => if s = "1" then Except.ok 1 else Except.error "bad")
      (fun _ => none) "x" 7 1 "bad").2.1 (by decide) rfl,
   (claim_C8 (fun s => if s = "1" then Except.ok 1 else Except.error "bad")
      (fun _ => none) "1" 7 1 "bad").2.2 (by decide) rfl⟩

/-- Claim C10: a Gateway-V2 query parameter present with the empty string
as its value decodes to the one-element list containing the empty string,
because splitting the empty string on a comma yields one empty element. -/
theorem claim_C10 (e : APIGatewayV2HTTPRequestEvent) (k : String)
    (hu : (e.queryStringParameters.map (fun p => p.1)).Nodup)
    (hmem : (k, "") ∈ e.queryStringParameters) :
    vget (((v2UnmarshalRequest e).query).getD []) k = [""] := by
  show vget (e.queryStringParameters.foldl
    (fun a p => (stringsSplit p.2 ',').foldl (fun a2 v => urlAdd a2 p.1 v) a) []) k = _
  rw [vget_v2QueryFold, filter_keys_of_nodup _ _ _ hu hmem]
  simp [vget, mapGet]
  decide

/-- Witness for C10 at a concrete input: the query map `\x7bq: ""\x7d`
decodes to `q` holding `[""]`. -/
theorem claim_C10_witness :
    vget (((v2UnmarshalRequest { queryStringParameters := [("q", "")] }).query).getD [])
        "q" = [""] :=
  claim_C10 { queryStringParameters := [("q", "")] } "q" (by decide) (by decide)

end Rack
